import Mathlib

/-!
# Verification of the EvoNovel semantic image cache

Shallow embedding of `fastApiServer/app/image_service.py` — the semantic
image cache (vector similarity engine, cache index, asset store, cache
orchestrator) — together with proofs settling the specification claims.

Modelling conventions:
* Python floats are idealised as real numbers (`ℝ`).
* Python byte strings are `List Nat` (each element < 256).
* Python exceptions are `Except String` values; every `raise` becomes
  `Except.error`, every `try/except` becomes a `match` on the result.
* The durable metadata document (`cache_metadata.json`) is modelled by
  `MetaDoc`, whose constructors mirror exactly the branches that
  `load_cache_metadata` distinguishes: file absent, file unreadable or not
  parseable as JSON, parseable but not a JSON list, and a parsed list.
* The asset directory is an association list from relative path to bytes.
* Python's `str.split(",")` and `str.startswith` are embedded as
  executable functions over `List Char`, and `base64.b64encode` /
  `base64.b64decode` as an executable canonical base64 codec.
-/

/-- Byte strings: each element is a byte value `< 256`. -/
abbrev Bytes := List Nat

/-! ## Base64 codec (Python `base64.b64encode` / `b64decode`) -/

/-- The standard base64 alphabet, in index order. -/
def b64Alphabet : List Char :=
  "ABCDEFGHIJKLMNOPQRSTUVWXYZabcdefghijklmnopqrstuvwxyz0123456789+/".data

/-- The character encoding a sextet value (`0 ≤ n < 64`). -/
def charOfSextet (n : Nat) : Char := b64Alphabet.getD n 'A'

/-- The sextet value of a base64 alphabet character, `none` otherwise. -/
def sextetOfChar (c : Char) : Option Nat := b64Alphabet.indexOf? c

/-- Base64-encode a byte string, three bytes to four characters, with
`'='` padding on a trailing one- or two-byte group. -/
def b64EncodeChunks : Bytes → List Char
  | [] => []
  | [b0] =>
      [charOfSextet (b0 / 4), charOfSextet (b0 % 4 * 16), '=', '=']
  | [b0, b1] =>
      [charOfSextet (b0 / 4), charOfSextet (b0 % 4 * 16 + b1 / 16),
       charOfSextet (b1 % 16 * 4), '=']
  | b0 :: b1 :: b2 :: rest =>
      charOfSextet (b0 / 4) :: charOfSextet (b0 % 4 * 16 + b1 / 16) ::
      charOfSextet (b1 % 16 * 4 + b2 / 64) :: charOfSextet (b2 % 64) ::
      b64EncodeChunks rest

/-- Base64-decode a character list: four characters to three bytes, with
`'='` padding allowed only at the very end.  Returns `none` on any input
that is not canonical base64 (the claims only exercise valid payloads). -/
def b64DecodeChunks : List Char → Option Bytes
  | [] => some []
  | c0 :: c1 :: c2 :: c3 :: rest =>
    match sextetOfChar c0, sextetOfChar c1 with
    | some s0, some s1 =>
      if c2 = '=' then
        if c3 = '=' ∧ rest = [] then some [s0 * 4 + s1 / 16] else none
      else
        match sextetOfChar c2 with
        | some s2 =>
          if c3 = '=' then
            if rest = [] then some [s0 * 4 + s1 / 16, s1 % 16 * 16 + s2 / 4]
            else none
          else
            match sextetOfChar c3, b64DecodeChunks rest with
            | some s3, some tail =>
                some ((s0 * 4 + s1 / 16) :: (s1 % 16 * 16 + s2 / 4) ::
                      (s2 % 4 * 64 + s3) :: tail)
            | _, _ => none
        | none => none
    | _, _ => none
  | _ => none

/-- `base64.b64encode(bs).decode('utf-8')`. -/
def b64encode (bs : Bytes) : String := ⟨b64EncodeChunks bs⟩

/-- `base64.b64decode(s)` on canonical base64 input. -/
def b64decode (s : String) : Option Bytes := b64DecodeChunks s.data

/-! ## Python string helpers used by the image service -/

/-- Python `s.split(",")` over the character list. -/
def splitComma : List Char → List (List Char)
  | [] => [[]]
  | c :: rest =>
    if c = ',' then [] :: splitComma rest
    else
      match splitComma rest with
      | [] => [[c]]
      | h :: t => (c :: h) :: t

/-- Python `s.startswith("data:image")`. -/
def startsWithDataImage (s : String) : Bool :=
  "data:image".data.isPrefixOf s.data

/-! ## Vector similarity engine (`cosine_similarity`) -/

/-- `np.dot(vec1, vec2)` for equal-length 1-d arrays (the source raises a
`ValueError` on mismatched lengths; every claim quantifies over
equal-length vectors, where `zipWith` agrees with `np.dot`). -/
def dotL (a b : List ℝ) : ℝ := (List.zipWith (fun x y => x * y) a b).sum

/-- Sum of squares of the components. -/
def sumSq (v : List ℝ) : ℝ := (v.map (fun x => x * x)).sum

/-- `np.linalg.norm(v)` — the Euclidean norm. -/
noncomputable def linalg_norm (v : List ℝ) : ℝ := Real.sqrt (sumSq v)

/-- Threshold for cache hit (`SIMILARITY_THRESHOLD = 0.85`). -/
def SIMILARITY_THRESHOLD : ℝ := 0.85

open Classical in
/-- `cosine_similarity(vec1, vec2)`:
dot product over the product of norms, `0.0` if either norm is zero. -/
noncomputable def cosine_similarity (vec1 vec2 : List ℝ) : ℝ :=
  if linalg_norm vec1 = 0 ∨ linalg_norm vec2 = 0 then 0.0
  else dotL vec1 vec2 / (linalg_norm vec1 * linalg_norm vec2)

/-! ## Data model -/

/-- One entry of `cache_metadata.json`.  Entries are JSON objects read with
`dict.get`, so every field is optional. -/
structure CacheItem where
  id : Option String
  text : Option String
  embedding : Option (List ℝ)
  image_path : Option String
  timestamp : Option String

/-- The state of the durable metadata document, distinguishing exactly the
cases `load_cache_metadata` branches on: file absent; unreadable or not
parseable as JSON (`json.JSONDecodeError` / `IOError`); parseable but not a
JSON list; a parsed list of entries. -/
inductive MetaDoc where
  | absent
  | unparseable
  | notList
  | doc (entries : List CacheItem)

/-- The file-system state the image service touches: the metadata document
and the asset files (relative path under the project root, byte content).
A path exists exactly when it has an entry in `files`; `lookup` returns the
content of the first entry, so writing prepends. -/
structure FS where
  metadata : MetaDoc
  files : List (String × Bytes)

/-- Shapes of the Freepik API response that
`_extract_image_url_from_result` distinguishes. -/
inductive FreepikResult where
  | dataBase64 (b64 : String)
  | dataUrl (url : String)
  | dataImageUrl (url : String)
  | topUrl (url : String)
  | topImageUrl (url : String)
  | imagesUrl (url : String)
  | malformed

/-- Outcomes of the external calls and of the nondeterministic choices
made during one `generate_image_with_cache` call: the embedding request
(`get_embedding`), the Freepik generation request (`generate_image`), the
fresh `uuid.uuid4()` and `datetime.now().isoformat()`. -/
structure Env where
  embedOutcome : Except String (List ℝ)
  genOutcome : Except String FreepikResult
  newId : String
  nowIso : String

/-- What `generate_image_with_cache` returns to its caller: the normal
paths return a dict `{"image_url": ..., "cached": ...}`; the
embedding-failure fallback path returns the bare result of
`_extract_image_url_from_result` (an `Optional[str]`). -/
inductive ImageResult where
  | dict (image_url : String) (cached : Bool)
  | bare (image_url : Option String)

/-! ## Cache index (`load_cache_metadata` / `save_cache_metadata`) -/

/-- `load_cache_metadata()`: absent file, unparseable file and non-list
document all degrade to the empty cache; a parsed list is returned as is.
Every exception (`json.JSONDecodeError`, `IOError`) is caught inside the
function, so it returns a plain list, never an `Except`. -/
def load_cache_metadata : MetaDoc → List CacheItem
  | .absent => []
  | .unparseable => []
  | .notList => []
  | .doc entries => entries

/-- `save_cache_metadata(metadata)`: `open(METADATA_FILE, 'w')` followed by
`json.dump`.  The resulting state of the document.  `IOError` is caught and
logged, so the call never fails. -/
def save_cache_metadata (fs : FS) (metadata : List CacheItem) : FS :=
  { fs with metadata := .doc metadata }

/-- The successive states of the metadata document a concurrent reader can
observe during `save_cache_metadata`: the old document, then the truncated
file (`open(METADATA_FILE, 'w')` truncates to zero length, and the empty
file is not parseable as JSON), then the fully written new document.  No
temporary file and no rename are used by the source. -/
def save_cache_metadata_states (fs : FS) (metadata : List CacheItem) :
    List MetaDoc :=
  [fs.metadata, .unparseable, .doc metadata]

/-! ## Cache search (`search_cache`) -/

open Classical in
/-- The `for cached_item in cache_metadata` loop of `search_cache`, with
the running `(best_match, max_similarity)` accumulator.  An entry whose
`embedding` field is missing or falsy (the empty list) is skipped. -/
noncomputable def search_loop (q : List ℝ) :
    List CacheItem → Option CacheItem × ℝ → Option CacheItem × ℝ
  | [], acc => acc
  | item :: rest, acc =>
    match item.embedding with
    | none => search_loop q rest acc
    | some emb =>
      if emb.isEmpty then search_loop q rest acc
      else
        let s := cosine_similarity q emb
        if s > acc.2 then search_loop q rest (some item, s)
        else search_loop q rest acc

/-- `search_cache(query_embedding, cache_metadata)`: linear scan tracking
the maximum cosine similarity, initialised at `(None, 0.0)`. -/
noncomputable def search_cache (query_embedding : List ℝ)
    (cache_metadata : List CacheItem) : Option CacheItem × ℝ :=
  search_loop query_embedding cache_metadata (none, 0.0)

/-! ## Asset store -/

/-- `verify_cache_entry(cached_item)`: does
`project_root / cached_item.get("image_path", "")` exist?  With the `""`
default, `project_root / "" == project_root`, an existing directory, so a
missing `image_path` field verifies trivially. -/
def verify_cache_entry (fs : FS) (cached_item : CacheItem) : Bool :=
  let p := cached_item.image_path.getD ""
  if p = "" then true else (fs.files.lookup p).isSome

/-- `load_image_from_cache(image_path)`: read the bytes and re-wrap them as
a `data:image/png;base64,...` data URL; raises if the file is absent. -/
def load_image_from_cache (fs : FS) (image_path : String) :
    Except String String :=
  match fs.files.lookup image_path with
  | none => .error "Failed to load image from cache"
  | some image_bytes => .ok ("data:image/png;base64," ++ b64encode image_bytes)

/-- The strip step of `save_image_to_cache`: remove a `data:image...`
prefix by `base64_data.split(",")[1]` (an `IndexError` — no comma — is an
exception). -/
def stripDataUrl (base64_data : String) : Except String String :=
  if startsWithDataImage base64_data then
    match (splitComma base64_data.data).get? 1 with
    | some cs => .ok ⟨cs⟩
    | none => .error "IndexError: list index out of range"
  else .ok base64_data

/-- `save_image_to_cache(base64_data, image_id)`: strip any data-URL
prefix, base64-decode, write `image_cache/img_{image_id}.png` (the path is
given relative to the project root, as the orchestrator's
`relative_to(project_root)` produces it) and return the path.  Any
decoding failure raises. -/
def save_image_to_cache (fs : FS) (base64_data : String) (image_id : String) :
    Except String (FS × String) :=
  match stripDataUrl base64_data with
  | .error e => .error e
  | .ok data =>
    let image_path := "image_cache/img_" ++ image_id ++ ".png"
    match b64decode data with
    | none => .error "Failed to save image to cache: invalid base64"
    | some image_bytes =>
      .ok ({ fs with files := (image_path, image_bytes) :: fs.files },
           image_path)

/-- `_extract_image_url_from_result(result)`: a base64 payload is wrapped
as a `data:image/jpeg;base64,...` data URL, the other recognised shapes
yield their URL, anything else yields `None`. -/
def extract_image_url_from_result : FreepikResult → Option String
  | .dataBase64 b64 => some ("data:image/jpeg;base64," ++ b64)
  | .dataUrl url => some url
  | .dataImageUrl url => some url
  | .topUrl url => some url
  | .topImageUrl url => some url
  | .imagesUrl url => some url
  | .malformed => none

/-! ## Cache orchestrator (`generate_image_with_cache`) -/

/-- Steps 5–6 of `generate_image_with_cache` (the cache-miss block):
generate via Freepik, extract the URL (raising when `not image_url`),
strip the data-URL prefix, save the image bytes to the cache directory,
append the new entry to `cache_metadata` and persist it, and return
`{"image_url": image_url, "cached": False}`.  Exceptions inside the block
are re-raised by the `except` handler at the end of the source function. -/
def generate_and_cache (env : Env) (fs : FS)
    (cache_metadata : List CacheItem) (search_text : String)
    (query_embedding : List ℝ) : Except String (ImageResult × FS) :=
  match env.genOutcome with
  | .error e => .error e
  | .ok result =>
    match extract_image_url_from_result result with
    | none => .error "Failed to extract image URL from API response"
    | some image_url =>
      if image_url = "" then
        .error "Failed to extract image URL from API response"
      else
        let image_id := env.newId
        let stripped : Except String String :=
          if startsWithDataImage image_url then
            match (splitComma image_url.data).get? 1 with
            | some cs => .ok ⟨cs⟩
            | none => .error "IndexError: list index out of range"
          else .ok image_url
        match stripped with
        | .error e => .error e
        | .ok base64_data =>
          match save_image_to_cache fs base64_data image_id with
          | .error e => .error e
          | .ok (fs1, image_path) =>
            let new_entry : CacheItem :=
              { id := some image_id, text := some search_text,
                embedding := some query_embedding,
                image_path := some image_path,
                timestamp := some env.nowIso }
            let fs2 := save_cache_metadata fs1 (cache_metadata ++ [new_entry])
            .ok (.dict image_url false, fs2)

open Classical in
/-- `generate_image_with_cache(art_description, style_notes)`.
Control flow mirrors the source: build the query text; on embedding
failure fall back to direct generation and return the bare extraction
result; otherwise load the metadata, search, and either serve the verified
hit, prune the winning entry on failed verification and fall through to
the miss block, or go to the miss block directly. -/
noncomputable def generate_image_with_cache (env : Env) (fs : FS)
    (art_description : String) (style_notes : String) :
    Except String (ImageResult × FS) :=
  let search_text :=
    if style_notes ≠ "" then art_description ++ " " ++ style_notes
    else art_description
  match env.embedOutcome with
  | .error _ =>
    -- fallback inside the `except` block: the extraction result is
    -- returned as-is (not wrapped in a dict); a generation failure here
    -- propagates
    (match env.genOutcome with
     | .error e => .error e
     | .ok result => .ok (.bare (extract_image_url_from_result result), fs))
  | .ok query_embedding =>
    let cache_metadata := load_cache_metadata fs.metadata
    let sres := search_cache query_embedding cache_metadata
    match sres.1 with
    | some best_match =>
      if sres.2 ≥ SIMILARITY_THRESHOLD then
        if verify_cache_entry fs best_match then
          match best_match.image_path with
          | none => .error "KeyError: image_path"
          | some image_path =>
            match load_image_from_cache fs image_path with
            | .ok image_url => .ok (.dict image_url true, fs)
            | .error _ =>
              generate_and_cache env fs cache_metadata search_text
                query_embedding
        else
          let pruned :=
            cache_metadata.filter (fun item => decide (item.id ≠ best_match.id))
          let fs1 := save_cache_metadata fs pruned
          generate_and_cache env fs1 pruned search_text query_embedding
      else
        generate_and_cache env fs cache_metadata search_text query_embedding
    | none =>
      generate_and_cache env fs cache_metadata search_text query_embedding

/-! ## Lemmas about the vector similarity engine -/

theorem sumSq_nil : sumSq [] = 0 := rfl

theorem sumSq_cons (x : ℝ) (xs : List ℝ) : sumSq (x :: xs) = x * x + sumSq xs := by
  simp [sumSq]

theorem sumSq_nonneg (v : List ℝ) : 0 ≤ sumSq v := by
  induction v with
  | nil => simp [sumSq]
  | cons x xs ih => rw [sumSq_cons]; nlinarith [mul_self_nonneg x]

theorem dotL_nil_left (b : List ℝ) : dotL [] b = 0 := rfl

theorem dotL_nil_right (a : List ℝ) : dotL a [] = 0 := by
  cases a <;> rfl

theorem dotL_cons (x y : ℝ) (xs ys : List ℝ) :
    dotL (x :: xs) (y :: ys) = x * y + dotL xs ys := by
  simp [dotL]

theorem dotL_self (v : List ℝ) : dotL v v = sumSq v := by
  induction v with
  | nil => rfl
  | cons x xs ih => rw [dotL_cons, sumSq_cons, ih]

/-- Cauchy–Schwarz for the list dot product. -/
theorem dotL_sq_le (a b : List ℝ) : dotL a b ^ 2 ≤ sumSq a * sumSq b := by
  induction a generalizing b with
  | nil =>
    rw [dotL_nil_left, sumSq_nil]
    simp
  | cons x xs ih =>
    cases b with
    | nil =>
      rw [dotL_nil_right, sumSq_nil]
      simp
    | cons y ys =>
      have hA := sumSq_nonneg xs
      have hB := sumSq_nonneg ys
      have h := ih ys
      rw [dotL_cons, sumSq_cons, sumSq_cons]
      by_cases hA0 : sumSq xs = 0
      · have hd : dotL xs ys = 0 := by nlinarith
        rw [hd, hA0]
        nlinarith [mul_self_nonneg x, mul_self_nonneg y]
      · have hApos : 0 < sumSq xs := lt_of_le_of_ne hA (Ne.symm hA0)
        nlinarith [sq_nonneg (x * dotL xs ys - y * sumSq xs),
          mul_self_nonneg x]

theorem linalg_norm_nonneg (v : List ℝ) : 0 ≤ linalg_norm v :=
  Real.sqrt_nonneg _

theorem mul_self_linalg_norm (v : List ℝ) :
    linalg_norm v * linalg_norm v = sumSq v :=
  Real.mul_self_sqrt (sumSq_nonneg v)

theorem linalg_norm_eq_zero (v : List ℝ) :
    linalg_norm v = 0 ↔ sumSq v = 0 :=
  Real.sqrt_eq_zero (sumSq_nonneg v)

/-- On the empty vector both the norm and the similarity are zero. -/
theorem cosine_similarity_nil_right (q : List ℝ) :
    cosine_similarity q [] = 0 := by
  have h : linalg_norm ([] : List ℝ) = 0 := by
    rw [linalg_norm_eq_zero, sumSq_nil]
  rw [cosine_similarity, if_pos (Or.inr h)]
  norm_num

theorem cosine_similarity_self (v : List ℝ) (h : sumSq v ≠ 0) :
    cosine_similarity v v = 1 := by
  have hn : linalg_norm v ≠ 0 := fun h0 => h ((linalg_norm_eq_zero v).mp h0)
  rw [cosine_similarity, if_neg (by tauto), dotL_self]
  rw [show linalg_norm v * linalg_norm v = sumSq v from mul_self_linalg_norm v]
  exact div_self h

/-- The computed similarity always lies in `[-1, 1]`. -/
theorem cosine_similarity_mem_Icc (a b : List ℝ) :
    -1 ≤ cosine_similarity a b ∧ cosine_similarity a b ≤ 1 := by
  rw [cosine_similarity]
  split
  · norm_num
  · rename_i hnz
    push_neg at hnz
    have ha : 0 < linalg_norm a :=
      lt_of_le_of_ne (linalg_norm_nonneg a) (Ne.symm hnz.1)
    have hb : 0 < linalg_norm b :=
      lt_of_le_of_ne (linalg_norm_nonneg b) (Ne.symm hnz.2)
    have key : |dotL a b| ≤ linalg_norm a * linalg_norm b := by
      calc |dotL a b| = Real.sqrt (dotL a b ^ 2) :=
            (Real.sqrt_sq_eq_abs _).symm
        _ ≤ Real.sqrt (sumSq a * sumSq b) := Real.sqrt_le_sqrt (dotL_sq_le a b)
        _ = linalg_norm a * linalg_norm b := Real.sqrt_mul (sumSq_nonneg a) _
    obtain ⟨k1, k2⟩ := abs_le.mp key
    constructor
    · rw [le_div_iff₀ (by positivity)]
      linarith
    · rw [div_le_one (by positivity)]
      exact k2

theorem sumSq_one : sumSq [(1 : ℝ)] = 1 := by norm_num [sumSq]

theorem cosine_similarity_one_one : cosine_similarity [(1 : ℝ)] [1] = 1 :=
  cosine_similarity_self [1] (by rw [sumSq_one]; norm_num)

/-! ## Lemmas about the base64 codec and string helpers -/

theorem sextet_charOfSextet_fin : ∀ n : Fin 64,
    sextetOfChar (charOfSextet n.val) = some n.val := by decide

theorem sextet_charOfSextet {n : Nat} (h : n < 64) :
    sextetOfChar (charOfSextet n) = some n := sextet_charOfSextet_fin ⟨n, h⟩

theorem charOfSextet_mem (n : Nat) : charOfSextet n ∈ b64Alphabet := by
  unfold charOfSextet
  rw [List.getD_eq_getElem?_getD]
  rcases h : b64Alphabet[n]? with _ | c
  · decide
  · simpa using List.getElem?_mem h

theorem charOfSextet_ne_pad (n : Nat) : charOfSextet n ≠ '=' := by
  intro h
  have hm := charOfSextet_mem n
  rw [h] at hm
  exact absurd hm (by decide)

theorem sextetOfChar_mem {c : Char} {s : Nat} (h : sextetOfChar c = some s) :
    c ∈ b64Alphabet := by
  by_contra hc
  have hnone : b64Alphabet.indexOf? c = none := by
    rw [List.indexOf?_eq_none_iff]
    intro x hx
    simp only [beq_iff_eq]
    rintro rfl
    exact hc hx
  rw [sextetOfChar, hnone] at h
  cases h


theorem b64EncodeChunks_chars (bs : Bytes) :
    ∀ c ∈ b64EncodeChunks bs, c ∈ b64Alphabet ∨ c = '=' := by
  induction bs using b64EncodeChunks.induct with
  | case1 => simp [b64EncodeChunks]
  | case2 b0 =>
    intro c hc
    simp only [b64EncodeChunks, List.mem_cons, List.not_mem_nil, or_false] at hc
    rcases hc with rfl | rfl | rfl | rfl
    · exact Or.inl (charOfSextet_mem _)
    · exact Or.inl (charOfSextet_mem _)
    · exact Or.inr rfl
    · exact Or.inr rfl
  | case3 b0 b1 =>
    intro c hc
    simp only [b64EncodeChunks, List.mem_cons, List.not_mem_nil, or_false] at hc
    rcases hc with rfl | rfl | rfl | rfl
    · exact Or.inl (charOfSextet_mem _)
    · exact Or.inl (charOfSextet_mem _)
    · exact Or.inl (charOfSextet_mem _)
    · exact Or.inr rfl
  | case4 b0 b1 b2 rest ih =>
    intro c hc
    simp only [b64EncodeChunks, List.mem_cons] at hc
    rcases hc with rfl | rfl | rfl | rfl | hc
    · exact Or.inl (charOfSextet_mem _)
    · exact Or.inl (charOfSextet_mem _)
    · exact Or.inl (charOfSextet_mem _)
    · exact Or.inl (charOfSextet_mem _)
    · exact ih c hc

theorem comma_not_mem_encode (bs : Bytes) : ',' ∉ b64EncodeChunks bs := by
  intro h
  rcases b64EncodeChunks_chars bs ',' h with hm | he
  · exact absurd hm (by decide)
  · exact absurd he (by decide)

theorem colon_not_mem_encode (bs : Bytes) : ':' ∉ b64EncodeChunks bs := by
  intro h
  rcases b64EncodeChunks_chars bs ':' h with hm | he
  · exact absurd hm (by decide)
  · exact absurd he (by decide)

theorem charOfSextet_eq_pad_iff (n : Nat) : (charOfSextet n = '=') ↔ False :=
  iff_false_intro (charOfSextet_ne_pad n)

/-- Decoding inverts encoding on genuine byte strings. -/
theorem b64_decode_encode : ∀ (bs : Bytes), (∀ b ∈ bs, b < 256) →
    b64DecodeChunks (b64EncodeChunks bs) = some bs := by
  intro bs
  induction bs using b64EncodeChunks.induct with
  | case1 => intro _; rfl
  | case2 b0 =>
    intro h
    have hb0 : b0 < 256 := h b0 (by simp)
    simp only [b64EncodeChunks, b64DecodeChunks,
      sextet_charOfSextet (show b0 / 4 < 64 by omega),
      sextet_charOfSextet (show b0 % 4 * 16 < 64 by omega)]
    simp only [and_self, ite_true, if_pos rfl, Option.some.injEq, List.cons.injEq,
      and_true]
    omega
  | case3 b0 b1 =>
    intro h
    have hb0 : b0 < 256 := h b0 (by simp)
    have hb1 : b1 < 256 := h b1 (by simp)
    simp only [b64EncodeChunks, b64DecodeChunks,
      sextet_charOfSextet (show b0 / 4 < 64 by omega),
      sextet_charOfSextet (show b0 % 4 * 16 + b1 / 16 < 64 by omega),
      sextet_charOfSextet (show b1 % 16 * 4 < 64 by omega),
      charOfSextet_eq_pad_iff, if_false, ite_true, ite_false,
      Option.some.injEq, List.cons.injEq, and_true]
    omega
  | case4 b0 b1 b2 rest ih =>
    intro h
    have hb0 : b0 < 256 := h b0 (by simp)
    have hb1 : b1 < 256 := h b1 (by simp)
    have hb2 : b2 < 256 := h b2 (by simp)
    have hrest := ih (fun b hb => h b (by simp [hb]))
    simp only [b64EncodeChunks, b64DecodeChunks,
      sextet_charOfSextet (show b0 / 4 < 64 by omega),
      sextet_charOfSextet (show b0 % 4 * 16 + b1 / 16 < 64 by omega),
      sextet_charOfSextet (show b1 % 16 * 4 + b2 / 64 < 64 by omega),
      sextet_charOfSextet (show b2 % 64 < 64 by omega),
      charOfSextet_eq_pad_iff, if_false, ite_true, ite_false, hrest,
      Option.some.injEq, List.cons.injEq, and_true]
    omega

theorem str_data_append (s t : String) : (s ++ t).data = s.data ++ t.data := rfl

theorem str_mk_data (s : String) : (⟨s.data⟩ : String) = s := rfl

theorem splitComma_of_not_mem (l : List Char) (h : ',' ∉ l) :
    splitComma l = [l] := by
  induction l with
  | nil => rfl
  | cons c rest ih =>
    have hc : c ≠ ',' := fun e => h (by simp [e])
    have hr : splitComma rest = [rest] := ih (fun hm => h (List.mem_cons_of_mem _ hm))
    simp only [splitComma, if_neg hc, hr]

theorem splitComma_append (l1 l2 : List Char) (h : ',' ∉ l1) :
    splitComma (l1 ++ ',' :: l2) = l1 :: splitComma l2 := by
  induction l1 with
  | nil => simp [splitComma]
  | cons c rest ih =>
    have hc : c ≠ ',' := fun e => h (by simp [e])
    have hr := ih (fun hm => h (List.mem_cons_of_mem _ hm))
    show splitComma (c :: (rest ++ ',' :: l2)) = (c :: rest) :: splitComma l2
    rw [splitComma, if_neg hc, hr]

theorem startsWith_jpeg (x : String) :
    startsWithDataImage ("data:image/jpeg;base64," ++ x) = true := by
  rw [startsWithDataImage, List.isPrefixOf_iff_prefix, str_data_append]
  have e : "data:image/jpeg;base64,".data =
      "data:image".data ++ "/jpeg;base64,".data := by decide
  rw [e, List.append_assoc]
  exact List.prefix_append _ _

theorem startsWith_png (x : String) :
    startsWithDataImage ("data:image/png;base64," ++ x) = true := by
  rw [startsWithDataImage, List.isPrefixOf_iff_prefix, str_data_append]
  have e : "data:image/png;base64,".data =
      "data:image".data ++ "/png;base64,".data := by decide
  rw [e, List.append_assoc]
  exact List.prefix_append _ _

theorem startsWith_b64encode (bs : Bytes) :
    startsWithDataImage (b64encode bs) = false := by
  rw [startsWithDataImage]
  by_contra h
  rw [Bool.not_eq_false, List.isPrefixOf_iff_prefix] at h
  have hcolon : ':' ∈ (b64encode bs).data := h.subset (by decide)
  exact colon_not_mem_encode bs hcolon

theorem append_jpeg_ne_empty (x : String) :
    ("data:image/jpeg;base64," ++ x) ≠ "" := by
  intro h
  have h2 := congrArg String.data h
  rw [str_data_append] at h2
  rcases List.append_eq_nil.mp h2 with ⟨h3, _⟩
  exact absurd h3 (by decide)

theorem splitComma_get_jpeg (x : String) (hx : ',' ∉ x.data) :
    (splitComma ("data:image/jpeg;base64," ++ x).data).get? 1 = some x.data := by
  rw [str_data_append]
  have e : "data:image/jpeg;base64,".data =
      "data:image/jpeg;base64".data ++ ',' :: [] := by decide
  rw [e, List.append_assoc, List.singleton_append,
      splitComma_append _ _ (by decide), splitComma_of_not_mem _ hx]
  rfl

theorem splitComma_get_png (x : String) (hx : ',' ∉ x.data) :
    (splitComma ("data:image/png;base64," ++ x).data).get? 1 = some x.data := by
  rw [str_data_append]
  have e : "data:image/png;base64,".data =
      "data:image/png;base64".data ++ ',' :: [] := by decide
  rw [e, List.append_assoc, List.singleton_append,
      splitComma_append _ _ (by decide), splitComma_of_not_mem _ hx]
  rfl

/-! ## Lemmas about the cache search -/

theorem search_loop_acc_le (q : List ℝ) (l : List CacheItem)
    (acc : Option CacheItem × ℝ) : acc.2 ≤ (search_loop q l acc).2 := by
  induction l generalizing acc with
  | nil => rw [search_loop]
  | cons item rest ih =>
    cases hemb : item.embedding with
    | none =>
      rw [search_loop, hemb]
      exact ih acc
    | some emb =>
      cases he : emb.isEmpty with
      | true =>
        rw [search_loop, hemb]
        simp only [he, if_true]
        exact ih acc
      | false =>
        rw [search_loop, hemb]
        simp only [he, Bool.false_eq_true, if_false]
        by_cases hgt : cosine_similarity q emb > acc.2
        · rw [if_pos hgt]
          exact le_trans (le_of_lt hgt)
            (ih (some item, cosine_similarity q emb))
        · rw [if_neg hgt]
          exact ih acc

theorem search_loop_cases (q : List ℝ) (l : List CacheItem)
    (acc : Option CacheItem × ℝ) :
    search_loop q l acc = acc ∨
    ∃ item ∈ l, ∃ emb, item.embedding = some emb ∧ emb.isEmpty = false ∧
      search_loop q l acc = (some item, cosine_similarity q emb) ∧
      acc.2 < cosine_similarity q emb := by
  induction l generalizing acc with
  | nil => left; rw [search_loop]
  | cons item rest ih =>
    cases hemb : item.embedding with
    | none =>
      rw [search_loop, hemb]
      rcases ih acc with h | ⟨it, hit, emb, h1, h2, h3, h4⟩
      · left; exact h
      · right; exact ⟨it, List.mem_cons_of_mem _ hit, emb, h1, h2, h3, h4⟩
    | some emb =>
      cases he : emb.isEmpty with
      | true =>
        rw [search_loop, hemb]
        simp only [he, if_true]
        rcases ih acc with h | ⟨it, hit, emb', h1, h2, h3, h4⟩
        · left; exact h
        · right; exact ⟨it, List.mem_cons_of_mem _ hit, emb', h1, h2, h3, h4⟩
      | false =>
        rw [search_loop, hemb]
        simp only [he, Bool.false_eq_true, if_false]
        by_cases hgt : cosine_similarity q emb > acc.2
        · rw [if_pos hgt]
          rcases ih (some item, cosine_similarity q emb) with h |
            ⟨it, hit, emb', h1, h2, h3, h4⟩
          · right
            exact ⟨item, List.mem_cons_self _ _, emb, hemb, he, h, hgt⟩
          · right
            exact ⟨it, List.mem_cons_of_mem _ hit, emb', h1, h2, h3,
              lt_trans hgt h4⟩
        · rw [if_neg hgt]
          rcases ih acc with h | ⟨it, hit, emb', h1, h2, h3, h4⟩
          · left; exact h
          · right; exact ⟨it, List.mem_cons_of_mem _ hit, emb', h1, h2, h3, h4⟩

theorem search_loop_ge (q : List ℝ) (l : List CacheItem)
    (acc : Option CacheItem × ℝ) :
    ∀ item ∈ l, ∀ emb, item.embedding = some emb → emb.isEmpty = false →
      cosine_similarity q emb ≤ (search_loop q l acc).2 := by
  induction l generalizing acc with
  | nil => intro item hit; exact absurd hit (List.not_mem_nil _)
  | cons it rest ih =>
    intro item hit emb hemb hne
    rcases List.mem_cons.mp hit with rfl | htail
    · rw [search_loop, hemb]
      simp only [hne, Bool.false_eq_true, if_false]
      by_cases hgt : cosine_similarity q emb > acc.2
      · rw [if_pos hgt]
        exact search_loop_acc_le q rest (some item, cosine_similarity q emb)
      · rw [if_neg hgt]
        exact le_trans (not_lt.mp hgt) (search_loop_acc_le q rest acc)
    · cases hemb' : it.embedding with
      | none =>
        rw [search_loop, hemb']
        exact ih acc item htail emb hemb hne
      | some emb' =>
        cases he' : emb'.isEmpty with
        | true =>
          rw [search_loop, hemb']
          simp only [he', if_true]
          exact ih acc item htail emb hemb hne
        | false =>
          rw [search_loop, hemb']
          simp only [he', Bool.false_eq_true, if_false]
          by_cases hgt : cosine_similarity q emb' > acc.2
          · rw [if_pos hgt]
            exact ih _ item htail emb hemb hne
          · rw [if_neg hgt]
            exact ih acc item htail emb hemb hne

theorem search_loop_skip (q : List ℝ) (l1 l2 : List CacheItem)
    (item : CacheItem) (h : item.embedding = none)
    (acc : Option CacheItem × ℝ) :
    search_loop q (l1 ++ item :: l2) acc = search_loop q (l1 ++ l2) acc := by
  induction l1 generalizing acc with
  | nil =>
    simp only [List.nil_append]
    rw [search_loop, h]
  | cons it rest ih =>
    simp only [List.cons_append]
    cases hemb : it.embedding with
    | none =>
      rw [search_loop, hemb, search_loop, hemb]
      exact ih acc
    | some emb =>
      cases he : emb.isEmpty with
      | true =>
        rw [search_loop, hemb, search_loop, hemb]
        simp only [he, if_true]
        exact ih acc
      | false =>
        rw [search_loop, hemb, search_loop, hemb]
        simp only [he, Bool.false_eq_true, if_false]
        by_cases hgt : cosine_similarity q emb > acc.2
        · rw [if_pos hgt, if_pos hgt]
          exact ih _
        · rw [if_neg hgt, if_neg hgt]
          exact ih acc

theorem threshold_pos : (0 : ℝ) < SIMILARITY_THRESHOLD := by
  rw [SIMILARITY_THRESHOLD]; norm_num

/-- **C1.** For every resolve call, the cache-hit branch condition of
`generate_image_with_cache` — `best_match and max_similarity >=
SIMILARITY_THRESHOLD`, where `(best_match, max_similarity)` comes from
`search_cache` — holds exactly when some entry of the loaded index has
cosine similarity `≥ 0.85` to the query (that is, when the maximum
similarity over the index reaches the threshold).  The comparison is `≥`:
similarity exactly `0.85` is a hit, anything strictly below is a miss. -/
theorem hit_branch_iff_threshold_reached (q : List ℝ) (meta : List CacheItem) :
    ((search_cache q meta).1.isSome ∧
      SIMILARITY_THRESHOLD ≤ (search_cache q meta).2) ↔
    ∃ item ∈ meta, ∃ emb, item.embedding = some emb ∧
      SIMILARITY_THRESHOLD ≤ cosine_similarity q emb := by
  constructor
  · rintro ⟨hsome, hth⟩
    rcases search_loop_cases q meta (none, 0.0) with h | ⟨it, hit, emb, h1, h2, h3, _⟩
    · rw [search_cache, h] at hth
      exact absurd hth (by rw [SIMILARITY_THRESHOLD]; norm_num)
    · refine ⟨it, hit, emb, h1, ?_⟩
      rw [search_cache, h3] at hth
      exact hth
  · rintro ⟨item, hmem, emb, hemb, hcos⟩
    have hne : emb.isEmpty = false := by
      cases he : emb.isEmpty
      · rfl
      · exfalso
        rw [List.isEmpty_iff] at he
        rw [he, cosine_similarity_nil_right] at hcos
        exact absurd (lt_of_lt_of_le threshold_pos hcos) (lt_irrefl 0)
    have hge := search_loop_ge q meta (none, 0.0) item hmem emb hemb hne
    constructor
    · rcases search_loop_cases q meta (none, 0.0) with h | ⟨it, _, emb', _, _, h3, _⟩
      · exfalso
        rw [h] at hge
        exact absurd (le_trans hcos hge)
          (by rw [SIMILARITY_THRESHOLD]; norm_num)
      · rw [search_cache, h3]
        rfl
    · exact le_trans hcos hge

/-- **C10.** `search_cache` reports a maximum similarity that is never
negative (the running maximum starts at `0.0`); it returns a best-match
entry only when that entry's similarity is strictly positive and equal to
the reported maximum — so an entry whose cosine similarity to the query is
zero or negative can never be selected; and it silently skips entries
whose `embedding` field is missing, which therefore cannot influence the
result. -/
theorem search_cache_spec (q : List ℝ) (meta : List CacheItem) :
    0 ≤ (search_cache q meta).2 ∧
    (∀ item, (search_cache q meta).1 = some item →
      ∃ emb, item.embedding = some emb ∧
        0 < cosine_similarity q emb ∧
        cosine_similarity q emb = (search_cache q meta).2) ∧
    (∀ l1 l2 item, item.embedding = none → meta = l1 ++ item :: l2 →
      search_cache q meta = search_cache q (l1 ++ l2)) := by
  refine ⟨?_, ?_, ?_⟩
  · have h := search_loop_acc_le q meta (none, 0.0)
    rw [search_cache]
    exact le_trans (by norm_num : (0:ℝ) ≤ 0.0) h
  · intro item hsome
    rcases search_loop_cases q meta (none, 0.0) with h | ⟨it, _, emb, h1, _, h3, h4⟩
    · rw [search_cache, h] at hsome
      cases hsome
    · rw [search_cache, h3] at hsome
      injection hsome with he
      subst he
      refine ⟨emb, h1, lt_of_le_of_lt (by norm_num : (0:ℝ) ≤ 0.0) h4, ?_⟩
      rw [search_cache, h3]
  · intro l1 l2 item hnone hsplit
    subst hsplit
    rw [search_cache, search_cache, search_loop_skip q l1 l2 item hnone]

/-- **C7.** For equal-length vectors, `cosine_similarity` computes the dot
product divided by the product of the two norms, the result always lies in
`[-1, 1]`, and when either vector has zero magnitude the result is exactly
`0.0` (a returned value, not an error). -/
theorem cosine_similarity_spec (a b : List ℝ) (h : a.length = b.length) :
    (linalg_norm a ≠ 0 → linalg_norm b ≠ 0 →
      cosine_similarity a b = dotL a b / (linalg_norm a * linalg_norm b)) ∧
    (-1 ≤ cosine_similarity a b ∧ cosine_similarity a b ≤ 1) ∧
    (linalg_norm a = 0 ∨ linalg_norm b = 0 → cosine_similarity a b = 0) := by
  refine ⟨?_, cosine_similarity_mem_Icc a b, ?_⟩
  · intro h1 h2
    rw [cosine_similarity, if_neg (by tauto)]
  · intro hz
    rw [cosine_similarity, if_pos hz]
    norm_num

/-- Witness for C7 at the concrete pair `[1, 0]`, `[0, 1]`. -/
theorem cosine_similarity_spec_witness :
    ([(1:ℝ), 0].length = [(0:ℝ), 1].length) ∧
    ((linalg_norm [(1:ℝ), 0] ≠ 0 → linalg_norm [(0:ℝ), 1] ≠ 0 →
      cosine_similarity [(1:ℝ), 0] [(0:ℝ), 1] =
        dotL [(1:ℝ), 0] [(0:ℝ), 1] /
          (linalg_norm [(1:ℝ), 0] * linalg_norm [(0:ℝ), 1])) ∧
    (-1 ≤ cosine_similarity [(1:ℝ), 0] [(0:ℝ), 1] ∧
      cosine_similarity [(1:ℝ), 0] [(0:ℝ), 1] ≤ 1) ∧
    (linalg_norm [(1:ℝ), 0] = 0 ∨ linalg_norm [(0:ℝ), 1] = 0 →
      cosine_similarity [(1:ℝ), 0] [(0:ℝ), 1] = 0)) :=
  ⟨rfl, cosine_similarity_spec [1, 0] [0, 1] rfl⟩

/-- **C8.** `load_cache_metadata` never raises: it is a total function of
the document state.  An absent document yields the empty sequence; an
unparseable document or one that is not a list yields the empty sequence
(after logging a warning); a parsed list is returned unchanged. -/
theorem load_cache_metadata_spec :
    load_cache_metadata .absent = [] ∧
    load_cache_metadata .unparseable = [] ∧
    load_cache_metadata .notList = [] ∧
    ∀ entries, load_cache_metadata (.doc entries) = entries :=
  ⟨rfl, rfl, rfl, fun _ => rfl⟩

/-- **C4** (counterexample).  A concrete save during which a reader can
observe a document state that is neither the old document nor the new one:
`save_cache_metadata` opens the metadata file with mode `'w'`, which
truncates it before `json.dump` writes the new contents, so the
intermediate observable state is the empty — unparseable — file.  No
write-to-temp-then-rename (or equivalent) is used, refuting the claimed
reader-atomicity. -/
theorem save_not_atomic_counterexample :
    MetaDoc.unparseable ∈
      save_cache_metadata_states ⟨MetaDoc.doc [], []⟩
        [⟨some "a", none, none, none, none⟩] ∧
    MetaDoc.unparseable ≠ MetaDoc.doc [] ∧
    MetaDoc.unparseable ≠ MetaDoc.doc [⟨some "a", none, none, none, none⟩] := by
  refine ⟨?_, ?_, ?_⟩ <;> simp [save_cache_metadata_states]

/-- **C4** (amended).  `save_cache_metadata` rewrites the document in
place: it truncates the file and then writes the new contents.  The final
state is the new document, but whenever the old document was itself
readable, a concurrent or interrupted reader can observe an intermediate
state that is neither the old nor the new document — the truncated,
unparseable file — which `load_cache_metadata` degrades to the empty
cache.  The save is therefore not atomic from a reader's perspective. -/
theorem save_truncates_then_writes (fs : FS) (m : List CacheItem)
    (h : fs.metadata ≠ .unparseable) :
    (save_cache_metadata fs m).metadata = .doc m ∧
    ∃ s ∈ save_cache_metadata_states fs m,
      s ≠ fs.metadata ∧ s ≠ .doc m ∧ load_cache_metadata s = [] := by
  refine ⟨rfl, .unparseable, ?_, fun e => h e.symm, by simp, rfl⟩
  simp [save_cache_metadata_states]

/-- Witness for the amended C4 at a concrete state. -/
theorem save_truncates_then_writes_witness :
    ((⟨MetaDoc.absent, []⟩ : FS).metadata ≠ .unparseable) ∧
    ((save_cache_metadata ⟨MetaDoc.absent, []⟩ []).metadata = .doc [] ∧
    ∃ s ∈ save_cache_metadata_states ⟨MetaDoc.absent, []⟩ [],
      s ≠ (⟨MetaDoc.absent, []⟩ : FS).metadata ∧ s ≠ .doc [] ∧
      load_cache_metadata s = []) :=
  ⟨by simp, save_truncates_then_writes ⟨MetaDoc.absent, []⟩ [] (by simp)⟩

/-! ## Execution lemmas for the orchestrator -/

theorem resolve_embed_fail (env : Env) (fs : FS) (d s e : String)
    (hemb : env.embedOutcome = .error e) :
    generate_image_with_cache env fs d s =
      match env.genOutcome with
      | .error e2 => .error e2
      | .ok result => .ok (.bare (extract_image_url_from_result result), fs) := by
  rw [generate_image_with_cache, hemb]

theorem resolve_miss (env : Env) (fs : FS) (d s : String) (v : List ℝ)
    (hemb : env.embedOutcome = .ok v)
    (hmiss : (search_cache v (load_cache_metadata fs.metadata)).1 = none ∨
      (search_cache v (load_cache_metadata fs.metadata)).2 < SIMILARITY_THRESHOLD) :
    generate_image_with_cache env fs d s =
      generate_and_cache env fs (load_cache_metadata fs.metadata)
        (if s ≠ "" then d ++ " " ++ s else d) v := by
  rw [generate_image_with_cache, hemb]
  rcases hsome : (search_cache v (load_cache_metadata fs.metadata)).1 with _ | bm
  · simp only [hsome]
  · rcases hmiss with h | h
    · rw [hsome] at h
      cases h
    · simp only [hsome]
      rw [if_neg (not_le.mpr h)]

theorem resolve_hit (env : Env) (fs : FS) (d s : String) (v : List ℝ)
    (bm : CacheItem) (p url : String)
    (hemb : env.embedOutcome = .ok v)
    (hsome : (search_cache v (load_cache_metadata fs.metadata)).1 = some bm)
    (hth : SIMILARITY_THRESHOLD ≤
      (search_cache v (load_cache_metadata fs.metadata)).2)
    (hver : verify_cache_entry fs bm = true)
    (hp : bm.image_path = some p)
    (hload : load_image_from_cache fs p = .ok url) :
    generate_image_with_cache env fs d s = .ok (.dict url true, fs) := by
  rw [generate_image_with_cache, hemb]
  simp only [hsome]
  rw [if_pos hth]
  simp only [hver, ite_true, hp, hload]

theorem resolve_drift (env : Env) (fs : FS) (d s : String) (v : List ℝ)
    (bm : CacheItem)
    (hemb : env.embedOutcome = .ok v)
    (hsome : (search_cache v (load_cache_metadata fs.metadata)).1 = some bm)
    (hth : SIMILARITY_THRESHOLD ≤
      (search_cache v (load_cache_metadata fs.metadata)).2)
    (hver : verify_cache_entry fs bm = false) :
    generate_image_with_cache env fs d s =
      generate_and_cache env
        (save_cache_metadata fs ((load_cache_metadata fs.metadata).filter
          (fun item => decide (item.id ≠ bm.id))))
        ((load_cache_metadata fs.metadata).filter
          (fun item => decide (item.id ≠ bm.id)))
        (if s ≠ "" then d ++ " " ++ s else d) v := by
  rw [generate_image_with_cache, hemb]
  simp only [hsome]
  rw [if_pos hth]
  simp only [hver, Bool.false_eq_true, ite_false]

theorem generate_and_cache_base64 (env : Env) (fs : FS)
    (meta : List CacheItem) (st : String) (v : List ℝ) (bs : Bytes)
    (hgen : env.genOutcome = .ok (.dataBase64 (b64encode bs)))
    (hbytes : ∀ b ∈ bs, b < 256) :
    generate_and_cache env fs meta st v =
      .ok (.dict ("data:image/jpeg;base64," ++ b64encode bs) false,
        { metadata := .doc (meta ++
            [⟨some env.newId, some st, some v,
              some ("image_cache/img_" ++ env.newId ++ ".png"),
              some env.nowIso⟩]),
          files := ("image_cache/img_" ++ env.newId ++ ".png", bs) ::
            fs.files }) := by
  rw [generate_and_cache, hgen]
  simp only [extract_image_url_from_result]
  rw [if_neg (append_jpeg_ne_empty _)]
  rw [show startsWithDataImage ("data:image/jpeg;base64," ++ b64encode bs) =
    true from startsWith_jpeg _]
  simp only [if_true]
  rw [splitComma_get_jpeg (b64encode bs) (comma_not_mem_encode bs)]
  simp only [Option.map_some]
  rw [save_image_to_cache, stripDataUrl]
  rw [show startsWithDataImage (b64encode bs) = false from
    startsWith_b64encode bs]
  simp only [Bool.false_eq_true, if_false]
  rw [show b64decode (b64encode bs) = some bs from b64_decode_encode bs hbytes]
  rfl

theorem path_ne_empty (x : String) :
    ("image_cache/img_" ++ x ++ ".png") ≠ "" := by
  intro h
  have h2 := congrArg String.data h
  rw [str_data_append, str_data_append] at h2
  rcases List.append_eq_nil.mp h2 with ⟨h3, _⟩
  rcases List.append_eq_nil.mp h3 with ⟨h4, _⟩
  exact absurd h4 (by decide)

theorem isEmpty_false_of_sumSq_ne (v : List ℝ) (hv : sumSq v ≠ 0) :
    v.isEmpty = false := by
  cases he : v.isEmpty
  · rfl
  · rw [List.isEmpty_iff] at he
    exact absurd (he ▸ sumSq_nil) hv

theorem search_cache_single_pos (q : List ℝ) (item : CacheItem)
    (emb : List ℝ) (hemb : item.embedding = some emb)
    (hne : emb.isEmpty = false) (hpos : 0 < cosine_similarity q emb) :
    search_cache q [item] = (some item, cosine_similarity q emb) := by
  rw [search_cache, search_loop, hemb]
  simp only [hne, Bool.false_eq_true, if_false]
  rw [if_pos (by exact lt_of_le_of_lt (by norm_num : (0.0:ℝ) ≤ 0) hpos)]
  rw [search_loop]

theorem lookup_self (p : String) (bs : Bytes) (rest : List (String × Bytes)) :
    ((p, bs) :: rest).lookup p = some bs := by
  simp [List.lookup]

theorem verify_fresh (fs : FS) (item : CacheItem) (x : String) (bs : Bytes)
    (hp : item.image_path = some ("image_cache/img_" ++ x ++ ".png")) :
    verify_cache_entry
      { metadata := fs.metadata,
        files := ("image_cache/img_" ++ x ++ ".png", bs) :: fs.files }
      item = true := by
  rw [verify_cache_entry, hp]
  simp only [Option.getD_some]
  rw [if_neg (path_ne_empty x), lookup_self]
  rfl

theorem load_fresh (fs : FS) (p : String) (bs : Bytes) :
    load_image_from_cache
      { metadata := fs.metadata, files := (p, bs) :: fs.files } p =
      .ok ("data:image/png;base64," ++ b64encode bs) := by
  rw [load_image_from_cache]
  simp only [lookup_self]

/-- The cache entry appended by the miss block of
`generate_image_with_cache` (id, query text, query embedding, relative
asset path, timestamp). -/
def newCacheEntry (env : Env) (search_text : String) (v : List ℝ) : CacheItem :=
  { id := some env.newId, text := some search_text, embedding := some v,
    image_path := some ("image_cache/img_" ++ env.newId ++ ".png"),
    timestamp := some env.nowIso }

/-- The file-system state after the miss block of
`generate_image_with_cache`: the freshly generated image written to the
cache directory, and the index document rewritten as the given metadata
list with the new entry appended. -/
def missState (env : Env) (fs : FS) (meta : List CacheItem)
    (search_text : String) (v : List ℝ) (bs : Bytes) : FS :=
  { metadata := .doc (meta ++ [newCacheEntry env search_text v]),
    files := ("image_cache/img_" ++ env.newId ++ ".png", bs) :: fs.files }

/-- Two identical resolve calls with deterministic providers: the first
(cold cache) generates, stores and indexes; the second hits the new entry
and serves it from the asset store, re-wrapped as `image/png`. -/
theorem resolve_twice_runs (env : Env) (fs0 : FS) (d s : String)
    (v : List ℝ) (bs : Bytes)
    (hmeta : load_cache_metadata fs0.metadata = [])
    (hemb : env.embedOutcome = .ok v)
    (hv : sumSq v ≠ 0)
    (hgen : env.genOutcome = .ok (.dataBase64 (b64encode bs)))
    (hbytes : ∀ b ∈ bs, b < 256) :
    generate_image_with_cache env fs0 d s =
      .ok (.dict ("data:image/jpeg;base64," ++ b64encode bs) false,
        missState env fs0 [] (if s ≠ "" then d ++ " " ++ s else d) v bs) ∧
    generate_image_with_cache env
        (missState env fs0 [] (if s ≠ "" then d ++ " " ++ s else d) v bs) d s =
      .ok (.dict ("data:image/png;base64," ++ b64encode bs) true,
        missState env fs0 [] (if s ≠ "" then d ++ " " ++ s else d) v bs) := by
  set stext := if s ≠ "" then d ++ " " ++ s else d with hst
  constructor
  · rw [resolve_miss env fs0 d s v hemb (Or.inl (by rw [hmeta]; rfl))]
    rw [hmeta, generate_and_cache_base64 env fs0 [] stext v bs hgen hbytes]
    rfl
  · have hme : load_cache_metadata
        (missState env fs0 [] stext v bs).metadata =
        [newCacheEntry env stext v] := rfl
    have hne := isEmpty_false_of_sumSq_ne v hv
    have hcos : cosine_similarity v v = 1 := cosine_similarity_self v hv
    have hsingle := search_cache_single_pos v (newCacheEntry env stext v) v rfl
      hne (by rw [hcos]; norm_num)
    apply resolve_hit env _ d s v (newCacheEntry env stext v)
      ("image_cache/img_" ++ env.newId ++ ".png")
      ("data:image/png;base64," ++ b64encode bs) hemb
    · rw [hme, hsingle]
    · rw [hme, hsingle]
      show SIMILARITY_THRESHOLD ≤ cosine_similarity v v
      rw [hcos, SIMILARITY_THRESHOLD]
      norm_num
    · exact verify_fresh ⟨MetaDoc.doc [newCacheEntry env stext v], fs0.files⟩
        _ env.newId bs rfl
    · rfl
    · exact load_fresh ⟨MetaDoc.doc [newCacheEntry env stext v], fs0.files⟩
        _ bs

/-- Concrete environment for the idempotence scenario: deterministic
providers (embedding `[1]`, generated image bytes `[65, 66, 67]`). -/
def envC6 : Env :=
  ⟨.ok [(1:ℝ)], .ok (.dataBase64 (b64encode [65, 66, 67])), "n1", "t1"⟩

/-- Cold-start file system for the idempotence scenario. -/
def fs0C6 : FS := ⟨.absent, []⟩

/-- State after the first resolve call of the idempotence scenario. -/
def fs1C6 : FS := missState envC6 fs0C6 [] "castle" [(1:ℝ)] [65, 66, 67]

/-- **C6** (counterexample).  Two identical resolve calls with
deterministic providers: the second call does return `wasCached = true`,
but its content is *not* identical to the first call's result — the first
call returns the generated image as a `data:image/jpeg;base64,...` URI
while the cached second call re-wraps the same bytes as
`data:image/png;base64,...`. -/
theorem resolve_second_call_content_differs :
    generate_image_with_cache envC6 fs0C6 "castle" "" =
      .ok (.dict ("data:image/jpeg;base64," ++ b64encode [65, 66, 67]) false,
        fs1C6) ∧
    generate_image_with_cache envC6 fs1C6 "castle" "" =
      .ok (.dict ("data:image/png;base64," ++ b64encode [65, 66, 67]) true,
        fs1C6) ∧
    ("data:image/jpeg;base64," ++ b64encode [65, 66, 67]) ≠
      ("data:image/png;base64," ++ b64encode [65, 66, 67]) := by
  have h := resolve_twice_runs envC6 fs0C6 "castle" "" [(1:ℝ)] [65, 66, 67]
    rfl rfl (by rw [sumSq_one]; norm_num) rfl (by decide)
  exact ⟨h.1, h.2, by decide⟩

/-- **C6** (amended).  Calling resolve twice in succession with identical
description and styleHints (deterministic providers, the first call
populating an empty cache) returns `wasCached = true` on the second call,
with image content whose base64 payload is byte-identical to the content
the first call generated; the only difference is the data-URI media-type
label — the first call's result is labelled `image/jpeg`, the cached
second result re-wraps the same stored bytes as `image/png`. -/
theorem resolve_second_call_cached_same_payload (env : Env) (fs0 : FS)
    (d s : String) (v : List ℝ) (bs : Bytes)
    (hmeta : load_cache_metadata fs0.metadata = [])
    (hemb : env.embedOutcome = .ok v)
    (hv : sumSq v ≠ 0)
    (hgen : env.genOutcome = .ok (.dataBase64 (b64encode bs)))
    (hbytes : ∀ b ∈ bs, b < 256) :
    generate_image_with_cache env fs0 d s =
      .ok (.dict ("data:image/jpeg;base64," ++ b64encode bs) false,
        missState env fs0 [] (if s ≠ "" then d ++ " " ++ s else d) v bs) ∧
    generate_image_with_cache env
        (missState env fs0 [] (if s ≠ "" then d ++ " " ++ s else d) v bs) d s =
      .ok (.dict ("data:image/png;base64," ++ b64encode bs) true,
        missState env fs0 [] (if s ≠ "" then d ++ " " ++ s else d) v bs) :=
  resolve_twice_runs env fs0 d s v bs hmeta hemb hv hgen hbytes

/-- Witness for the amended C6 at the concrete scenario. -/
theorem resolve_second_call_cached_same_payload_witness :
    (load_cache_metadata fs0C6.metadata = [] ∧
     envC6.embedOutcome = .ok [(1:ℝ)] ∧
     sumSq [(1:ℝ)] ≠ 0 ∧
     envC6.genOutcome = .ok (.dataBase64 (b64encode [65, 66, 67])) ∧
     (∀ b ∈ [65, 66, 67], b < 256)) ∧
    (generate_image_with_cache envC6 fs0C6 "castle" "" =
      .ok (.dict ("data:image/jpeg;base64," ++ b64encode [65, 66, 67]) false,
        fs1C6) ∧
     generate_image_with_cache envC6 fs1C6 "castle" "" =
      .ok (.dict ("data:image/png;base64," ++ b64encode [65, 66, 67]) true,
        fs1C6)) :=
  ⟨⟨rfl, rfl, by rw [sumSq_one]; norm_num, rfl, by decide⟩,
    resolve_second_call_cached_same_payload envC6 fs0C6 "castle" "" [(1:ℝ)]
      [65, 66, 67] rfl rfl (by rw [sumSq_one]; norm_num) rfl (by decide)⟩

/-- **C2.** Drift repair: when the best-matching entry clears the
similarity threshold but its asset file is absent, resolve does not return
the stale entry's content; it removes exactly that entry from the index
(all entries with a different id survive; under the unique-id invariant no
other entry is removed), persists the pruned index, and falls through to
fresh generation — without retrying any other entry — returning the fresh
content with `cached = False` and the pruned-plus-appended index
persisted. -/
theorem drift_repair_spec (env : Env) (fs : FS) (d s : String) (v : List ℝ)
    (bm : CacheItem) (bs : Bytes)
    (hemb : env.embedOutcome = .ok v)
    (hsome : (search_cache v (load_cache_metadata fs.metadata)).1 = some bm)
    (hth : SIMILARITY_THRESHOLD ≤
      (search_cache v (load_cache_metadata fs.metadata)).2)
    (hver : verify_cache_entry fs bm = false)
    (hids : ((load_cache_metadata fs.metadata).map CacheItem.id).Nodup)
    (hgen : env.genOutcome = .ok (.dataBase64 (b64encode bs)))
    (hbytes : ∀ b ∈ bs, b < 256) :
    bm ∉ (load_cache_metadata fs.metadata).filter
      (fun item => decide (item.id ≠ bm.id)) ∧
    (∀ item ∈ load_cache_metadata fs.metadata, item ≠ bm →
      item ∈ (load_cache_metadata fs.metadata).filter
        (fun item => decide (item.id ≠ bm.id))) ∧
    generate_image_with_cache env fs d s =
      .ok (.dict ("data:image/jpeg;base64," ++ b64encode bs) false,
        missState env
          (save_cache_metadata fs ((load_cache_metadata fs.metadata).filter
            (fun item => decide (item.id ≠ bm.id))))
          ((load_cache_metadata fs.metadata).filter
            (fun item => decide (item.id ≠ bm.id)))
          (if s ≠ "" then d ++ " " ++ s else d) v bs) := by
  have hmem : bm ∈ load_cache_metadata fs.metadata := by
    rcases search_loop_cases v (load_cache_metadata fs.metadata) (none, 0.0)
      with h | ⟨it, hit, emb, _, _, h3, _⟩
    · rw [search_cache, h] at hsome
      cases hsome
    · rw [search_cache, h3] at hsome
      have h4 : some it = some bm := hsome
      injection h4 with he
      exact he ▸ hit
  refine ⟨?_, ?_, ?_⟩
  · intro hin
    rcases List.mem_filter.mp hin with ⟨_, hd⟩
    simp at hd
  · intro item hitem hne
    refine List.mem_filter.mpr ⟨hitem, ?_⟩
    simp only [decide_eq_true_eq]
    intro heq
    exact hne (List.inj_on_of_nodup_map hids hitem hmem heq)
  · rw [resolve_drift env fs d s v bm hemb hsome hth hver]
    rw [generate_and_cache_base64 env _ _ _ v bs hgen hbytes]
    rfl

/-- Stale entry for the drift-repair scenario: indexed with a high
similarity embedding but its asset file is missing from the store. -/
def itemC2 : CacheItem :=
  ⟨some "c1", some "old text", some [(1:ℝ)],
   some "image_cache/img_c1.png", some "ts"⟩

/-- File system for the drift-repair scenario: the index references
`itemC2`, the asset directory is empty (the file was deleted
out-of-band). -/
def fsC2 : FS := ⟨.doc [itemC2], []⟩

/-- Environment for the drift-repair scenario. -/
def envC2 : Env := ⟨.ok [(1:ℝ)], .ok (.dataBase64 (b64encode [65])), "n1", "t1"⟩

/-- Witness for C2 at the concrete drift scenario. -/
theorem drift_repair_spec_witness :
    (envC2.embedOutcome = .ok [(1:ℝ)] ∧
     (search_cache [(1:ℝ)] (load_cache_metadata fsC2.metadata)).1 =
       some itemC2 ∧
     SIMILARITY_THRESHOLD ≤
       (search_cache [(1:ℝ)] (load_cache_metadata fsC2.metadata)).2 ∧
     verify_cache_entry fsC2 itemC2 = false ∧
     ((load_cache_metadata fsC2.metadata).map CacheItem.id).Nodup ∧
     envC2.genOutcome = .ok (.dataBase64 (b64encode [65])) ∧
     (∀ b ∈ [65], b < 256)) ∧
    (itemC2 ∉ (load_cache_metadata fsC2.metadata).filter
       (fun item => decide (item.id ≠ itemC2.id)) ∧
     (∀ item ∈ load_cache_metadata fsC2.metadata, item ≠ itemC2 →
       item ∈ (load_cache_metadata fsC2.metadata).filter
         (fun item => decide (item.id ≠ itemC2.id))) ∧
     generate_image_with_cache envC2 fsC2 "castle" "" =
       .ok (.dict ("data:image/jpeg;base64," ++ b64encode [65]) false,
         missState envC2
           (save_cache_metadata fsC2 ((load_cache_metadata fsC2.metadata).filter
             (fun item => decide (item.id ≠ itemC2.id))))
           ((load_cache_metadata fsC2.metadata).filter
             (fun item => decide (item.id ≠ itemC2.id)))
           (if "" ≠ "" then "castle" ++ " " ++ "" else "castle") [(1:ℝ)] [65])) := by
  have hsingle : search_cache [(1:ℝ)] [itemC2] =
      (some itemC2, cosine_similarity [(1:ℝ)] [1]) :=
    search_cache_single_pos _ _ _ rfl rfl
      (by rw [cosine_similarity_one_one]; norm_num)
  have hsome : (search_cache [(1:ℝ)] (load_cache_metadata fsC2.metadata)).1 =
      some itemC2 := by
    rw [show load_cache_metadata fsC2.metadata = [itemC2] from rfl, hsingle]
  have hth : SIMILARITY_THRESHOLD ≤
      (search_cache [(1:ℝ)] (load_cache_metadata fsC2.metadata)).2 := by
    rw [show load_cache_metadata fsC2.metadata = [itemC2] from rfl, hsingle]
    show SIMILARITY_THRESHOLD ≤ cosine_similarity [(1:ℝ)] [1]
    rw [cosine_similarity_one_one, SIMILARITY_THRESHOLD]
    norm_num
  have hids : ((load_cache_metadata fsC2.metadata).map CacheItem.id).Nodup := by
    rw [show load_cache_metadata fsC2.metadata = [itemC2] from rfl]
    simp
  exact ⟨⟨rfl, hsome, hth, rfl, hids, rfl, by decide⟩,
    drift_repair_spec envC2 fsC2 "castle" "" [(1:ℝ)] itemC2 [65]
      rfl hsome hth rfl hids rfl (by decide)⟩

/-- **C9.** On a cache hit whose asset is verified present, resolve
performs no mutation at all: the returned file-system state is exactly the
input state — the index document is not rewritten, no asset file is
written or deleted, no entry is created, and the matched entry (an element
of the unchanged document) keeps all its fields — and the cached content
is returned with `cached = True`. -/
theorem hit_no_mutation (env : Env) (fs : FS) (d s : String) (v : List ℝ)
    (bm : CacheItem) (p url : String)
    (hemb : env.embedOutcome = .ok v)
    (hsome : (search_cache v (load_cache_metadata fs.metadata)).1 = some bm)
    (hth : SIMILARITY_THRESHOLD ≤
      (search_cache v (load_cache_metadata fs.metadata)).2)
    (hver : verify_cache_entry fs bm = true)
    (hp : bm.image_path = some p)
    (hload : load_image_from_cache fs p = .ok url) :
    generate_image_with_cache env fs d s = .ok (.dict url true, fs) :=
  resolve_hit env fs d s v bm p url hemb hsome hth hver hp hload

/-- Cached entry for the verified-hit scenario. -/
def itemC9 : CacheItem :=
  ⟨some "c1", some "old text", some [(1:ℝ)],
   some "image_cache/img_c1.png", some "ts"⟩

/-- File system for the verified-hit scenario: index entry and its asset
file both present. -/
def fsC9 : FS := ⟨.doc [itemC9], [("image_cache/img_c1.png", [65, 66, 67])]⟩

/-- Environment for the verified-hit scenario. -/
def envC9 : Env := ⟨.ok [(1:ℝ)], .ok .malformed, "n1", "t1"⟩

/-- Witness for C9 at the concrete verified-hit scenario. -/
theorem hit_no_mutation_witness :
    (envC9.embedOutcome = .ok [(1:ℝ)] ∧
     (search_cache [(1:ℝ)] (load_cache_metadata fsC9.metadata)).1 =
       some itemC9 ∧
     SIMILARITY_THRESHOLD ≤
       (search_cache [(1:ℝ)] (load_cache_metadata fsC9.metadata)).2 ∧
     verify_cache_entry fsC9 itemC9 = true ∧
     itemC9.image_path = some "image_cache/img_c1.png" ∧
     load_image_from_cache fsC9 "image_cache/img_c1.png" =
       .ok ("data:image/png;base64," ++ b64encode [65, 66, 67])) ∧
    generate_image_with_cache envC9 fsC9 "castle" "" =
      .ok (.dict ("data:image/png;base64," ++ b64encode [65, 66, 67]) true,
        fsC9) := by
  have hsingle : search_cache [(1:ℝ)] [itemC9] =
      (some itemC9, cosine_similarity [(1:ℝ)] [1]) :=
    search_cache_single_pos _ _ _ rfl rfl
      (by rw [cosine_similarity_one_one]; norm_num)
  have hsome : (search_cache [(1:ℝ)] (load_cache_metadata fsC9.metadata)).1 =
      some itemC9 := by
    rw [show load_cache_metadata fsC9.metadata = [itemC9] from rfl, hsingle]
  have hth : SIMILARITY_THRESHOLD ≤
      (search_cache [(1:ℝ)] (load_cache_metadata fsC9.metadata)).2 := by
    rw [show load_cache_metadata fsC9.metadata = [itemC9] from rfl, hsingle]
    show SIMILARITY_THRESHOLD ≤ cosine_similarity [(1:ℝ)] [1]
    rw [cosine_similarity_one_one, SIMILARITY_THRESHOLD]
    norm_num
  exact ⟨⟨rfl, hsome, hth, rfl, rfl, rfl⟩,
    hit_no_mutation envC9 fsC9 "castle" "" [(1:ℝ)] itemC9
      "image_cache/img_c1.png" ("data:image/png;base64," ++ b64encode [65, 66, 67])
      rfl hsome hth rfl rfl rfl⟩

/-- **C3** (code bug).  When the embedding request fails, resolve does not
fail and leaves the file system — in particular the persisted index —
unchanged, but it does *not* return a result of the same shape as the
normal path: the fallback path returns the bare value of
`_extract_image_url_from_result` (Python `Optional[str]`) instead of the
`{"image_url": ..., "cached": False}` dict promised by the function's own
`-> Dict` annotation and docstring and produced by every other successful
path.  Evaluated here at a failing input (embedding fails, generation
succeeds with a base64 payload): the result is a bare string, distinct
from every dict-shaped result, and the caller in `main.py` — which invokes
`.get("image_url")` on it — cannot extract the image from it. -/
theorem embed_failure_fallback_shape :
    generate_image_with_cache
      ⟨.error "embedding provider down", .ok (.dataBase64 "QUJD"), "n1", "t1"⟩
      ⟨.doc [], []⟩ "castle" "cinematic" =
      .ok (.bare (some ("data:image/jpeg;base64," ++ "QUJD")),
        ⟨.doc [], []⟩) := rfl

/-- **C5** (counterexample).  A concrete embedded-data string that does
not round-trip byte-for-byte: storing the `data:image/jpeg;base64,QUJD`
URI and reading it back yields `data:image/png;base64,QUJD` — the bytes
are identical but the re-wrapped representation is not the same string,
because `load_image_from_cache` always re-wraps as `image/png`. -/
theorem asset_roundtrip_counterexample :
    save_image_to_cache ⟨.absent, []⟩ ("data:image/jpeg;base64," ++ "QUJD")
      "id1" =
      .ok (⟨.absent, [("image_cache/img_id1.png", [65, 66, 67])]⟩,
        "image_cache/img_id1.png") ∧
    load_image_from_cache
      ⟨.absent, [("image_cache/img_id1.png", [65, 66, 67])]⟩
      "image_cache/img_id1.png" = .ok ("data:image/png;base64," ++ "QUJD") ∧
    ("data:image/png;base64," ++ "QUJD") ≠
      ("data:image/jpeg;base64," ++ "QUJD") :=
  ⟨rfl, rfl, by decide⟩

/-- **C5** (amended).  A store-and-retrieve cycle through the asset store
is byte-exact on the image content: the stored bytes are exactly the
decoded payload, and `load_image_from_cache` re-wraps them as an
`image/png` data URI with the identical base64 payload.  Consequently a
`data:image/png;base64,` URI with canonical payload round-trips
byte-for-byte, while a URI with any other media type (such as the
`data:image/jpeg` form produced at generation time) comes back with
payload intact but re-labelled `image/png`. -/
theorem asset_roundtrip_png (fs : FS) (x : String) (bs : Bytes)
    (hbytes : ∀ b ∈ bs, b < 256) :
    save_image_to_cache fs ("data:image/png;base64," ++ b64encode bs) x =
      .ok ({ metadata := fs.metadata,
             files := ("image_cache/img_" ++ x ++ ".png", bs) :: fs.files },
           "image_cache/img_" ++ x ++ ".png") ∧
    load_image_from_cache
      { metadata := fs.metadata,
        files := ("image_cache/img_" ++ x ++ ".png", bs) :: fs.files }
      ("image_cache/img_" ++ x ++ ".png") =
      .ok ("data:image/png;base64," ++ b64encode bs) ∧
    save_image_to_cache fs ("data:image/jpeg;base64," ++ b64encode bs) x =
      .ok ({ metadata := fs.metadata,
             files := ("image_cache/img_" ++ x ++ ".png", bs) :: fs.files },
           "image_cache/img_" ++ x ++ ".png") := by
  refine ⟨?_, load_fresh fs _ bs, ?_⟩
  · rw [save_image_to_cache, stripDataUrl]
    rw [show startsWithDataImage ("data:image/png;base64," ++ b64encode bs) =
      true from startsWith_png _]
    simp only [if_true]
    rw [splitComma_get_png (b64encode bs) (comma_not_mem_encode bs)]
    simp only [str_mk_data]
    rw [show b64decode (b64encode bs) = some bs from b64_decode_encode bs hbytes]
  · rw [save_image_to_cache, stripDataUrl]
    rw [show startsWithDataImage ("data:image/jpeg;base64," ++ b64encode bs) =
      true from startsWith_jpeg _]
    simp only [if_true]
    rw [splitComma_get_jpeg (b64encode bs) (comma_not_mem_encode bs)]
    simp only [str_mk_data]
    rw [show b64decode (b64encode bs) = some bs from b64_decode_encode bs hbytes]

/-- Witness for the amended C5 at concrete bytes `[65, 66, 67]`. -/
theorem asset_roundtrip_png_witness :
    (∀ b ∈ [65, 66, 67], b < 256) ∧
    (save_image_to_cache ⟨.absent, []⟩
        ("data:image/png;base64," ++ b64encode [65, 66, 67]) "id1" =
      .ok (⟨.absent, [("image_cache/img_id1.png", [65, 66, 67])]⟩,
        "image_cache/img_id1.png") ∧
     load_image_from_cache
        ⟨.absent, [("image_cache/img_id1.png", [65, 66, 67])]⟩
        "image_cache/img_id1.png" =
      .ok ("data:image/png;base64," ++ b64encode [65, 66, 67]) ∧
     save_image_to_cache ⟨.absent, []⟩
        ("data:image/jpeg;base64," ++ b64encode [65, 66, 67]) "id1" =
      .ok (⟨.absent, [("image_cache/img_id1.png", [65, 66, 67])]⟩,
        "image_cache/img_id1.png")) :=
  ⟨by decide, asset_roundtrip_png ⟨.absent, []⟩ "id1" [65, 66, 67] (by decide)⟩
